import Mathlib

/-!
Verification of the pug task engine and state-reconciliation service.

This file shallowly embeds the Go sources:
  * `internal/task` service (`Service.Create/List/Delete/Counter`, `ListOptions`),
  * `internal/state` service (`Service.Reload/Delete/Taint`,
    `updateStateStatus`, `updateResourceStatus`),
  * `internal/tui/run` (`CreateRuns`, `HandleCreatedRuns`),
and proves the specification's claims about them.

Entities not present in the sources (the generic `resource.Table`, the
`State` entity with `startReload`/`NewState`, the task factory) are
modelled from the specification, as flagged in their doc comments.

Modelling conventions:
  * machine integers and timestamps are `Nat` (no overflow is relevant),
  * Go maps (`resource.Table`, `State.Resources`) are embedded as
    `ID → Option V` functions or association lists with a lookup,
  * Go's unstable `slices.SortFunc` is embedded as `List.mergeSort` with
    the same comparator: both contracts are "a permutation of the input,
    ordered by the comparator", which is all any claim relies on,
  * nil pointers that can flow into a slice are embedded as `Option`.
-/

namespace Pug

/-- Modelled from the spec: resource identifiers are globally unique; the
zero value denotes the Global entity, which is an ancestor of everything. -/
abbrev ID := Nat

/-- Resource addresses in a workspace's state (Go `state.ResourceAddress`,
a string). -/
abbrev Addr := String

/-- Task lifecycle states from the spec's task state machine
(`Pending, Queued, Running, Exited, Errored, Canceled`). -/
inductive TaskStatus where
  | pending
  | queued
  | running
  | exited
  | errored
  | canceled
deriving DecidableEq

/-- The task entity (Go `task.Task`): command and argument vector, module
path, environment entries, blocking flag, lifecycle state, last-updated
timestamp, and its identity with the parent chain used by `HasAncestor`. -/
structure Task where
  id : ID
  path : String
  command : List String
  args : List String
  env : List String
  blocking : Bool
  state : TaskStatus
  updated : Nat
  parents : List ID
deriving DecidableEq

/-- Modelled from the spec: `HasAncestor(id)` is true if `id` equals the
entity's own ID or appears anywhere in its parent chain; the zero-value ID
denotes Global and is an ancestor of everything. (The `resource` package is
not among the sources.) -/
def Task.hasAncestor (t : Task) (a : ID) : Bool :=
  a = 0 || a = t.id || t.parents.contains a

/-- Options accepted by `task.Service.List` (Go `task.ListOptions`). A Go
nil slice or nil pointer field is `none`; a present field is `some`. -/
structure ListOptions where
  path : Option String
  status : Option (List TaskStatus)
  oldest : Bool
  blocking : Bool
  command : Option (List (List String))
  ancestor : ID

/-- The task service's own state (Go `task.Service`): the entity table of
tasks and the live-task counter incremented by `Create`. -/
structure TaskService where
  table : List (ID × Task)
  counter : Nat
deriving DecidableEq

/-- Embeds the `opts.Command` block of `task.Service.List`. The Go loop
ranges over `opts.Command` and merely `break`s on a `slices.Equal` match:
neither branch executes `continue`, so control always falls through to the
next filter and the task is never skipped. The embedding mirrors the loop
literally: a match stops the scan, exhaustion also passes. -/
def commandLoop (t : Task) : List (List String) → Bool
  | [] => true
  | c :: rest => if c = t.command then true else commandLoop t rest

/-- Embeds the full filter body of the `for _, t := range tasks` loop in
`task.Service.List`: path filter, status filter, blocking filter, the
(ineffective) command scan, and the ancestor filter. -/
def matchesListOptions (opts : ListOptions) (t : Task) : Bool :=
  (match opts.path with
   | some p => p = t.path
   | none => true) &&
  (match opts.status with
   | some ss => ss.contains t.state
   | none => true) &&
  (!opts.blocking || t.blocking) &&
  (match opts.command with
   | some cmds => commandLoop t cmds
   | none => true) &&
  t.hasAncestor opts.ancestor

/-- The comparator handed to `slices.SortFunc` in `task.Service.List`,
expressed as a boolean "less or equal": `Oldest` orders by ascending
`Updated`, otherwise descending. -/
def sortCmpLe (oldest : Bool) (a b : Task) : Bool :=
  if oldest then decide (a.updated ≤ b.updated) else decide (b.updated ≤ a.updated)

/-- Embeds `task.Service.List`: snapshot the table, filter in place, then
sort by the last-updated comparator. -/
def TaskService.list (svc : TaskService) (opts : ListOptions) : List Task :=
  ((svc.table.map Prod.snd).filter (matchesListOptions opts)).mergeSort (sortCmpLe opts.oldest)

/-- Errors surfaced by the services (spec section 7). -/
inductive Err where
  | notFound
  | invalidState
  | validation
deriving DecidableEq

/-- Embeds `task.Service.Delete`: removes the task from the table
(`Table.Delete` on an absent key is a no-op per the spec) and
unconditionally returns a nil error; the live-task counter is untouched. -/
def TaskService.delete (svc : TaskService) (taskID : ID) : TaskService × Option Err :=
  ({ svc with table := svc.table.filter (fun e => !(decide (e.1 = taskID))) }, none)

/-- Embeds `task.Service.Counter`: returns the live-task counter. -/
def TaskService.counterVal (svc : TaskService) : Nat :=
  svc.counter

/-- Folds `TaskService.delete` over a list of task IDs, for the
"any number of deletions" part of the counter claim. -/
def TaskService.deleteAll (svc : TaskService) (ids : List ID) : TaskService :=
  ids.foldl (fun s i => (s.delete i).1) svc

theorem commandLoop_true (t : Task) (cmds : List (List String)) :
    commandLoop t cmds = true := by
  induction cmds with
  | nil => rfl
  | cons c rest ih =>
    unfold commandLoop
    split <;> simp [ih]

theorem sortCmpLe_trans (oldest : Bool) (a b c : Task)
    (hab : sortCmpLe oldest a b = true) (hbc : sortCmpLe oldest b c = true) :
    sortCmpLe oldest a c = true := by
  cases oldest <;> simp [sortCmpLe] at * <;> omega

theorem sortCmpLe_total (oldest : Bool) (a b : Task) :
    (sortCmpLe oldest a b || sortCmpLe oldest b a) = true := by
  cases oldest <;> simp [sortCmpLe] <;> omega

/-- C1: `Service.List` with no status filter (`Status` nil, the zero
value) returns exactly the tasks having the given ancestor, as a
permutation of the table's snapshot filtered by `HasAncestor`; with
`Oldest: true` the result is pairwise non-decreasing in `Updated`, with
`Oldest: false` pairwise non-increasing (both captured by `sortCmpLe`). -/
theorem list_no_status_filter_sorted (svc : TaskService) (anc : ID) (oldest : Bool) :
    (svc.list { path := none, status := none, oldest := oldest, blocking := false,
                command := none, ancestor := anc }).Perm
      ((svc.table.map Prod.snd).filter (fun t => t.hasAncestor anc)) ∧
    List.Pairwise (fun a b => sortCmpLe oldest a b = true)
      (svc.list { path := none, status := none, oldest := oldest, blocking := false,
                  command := none, ancestor := anc }) := by
  constructor
  · have hperm := List.mergeSort_perm
      ((svc.table.map Prod.snd).filter
        (matchesListOptions { path := none, status := none, oldest := oldest,
                              blocking := false, command := none, ancestor := anc }))
      (sortCmpLe oldest)
    have hfil : (svc.table.map Prod.snd).filter
        (matchesListOptions { path := none, status := none, oldest := oldest,
                              blocking := false, command := none, ancestor := anc }) =
        (svc.table.map Prod.snd).filter (fun t => t.hasAncestor anc) := by
      apply List.filter_congr
      intro t _
      simp [matchesListOptions]
    rw [TaskService.list]
    rw [hfil] at hperm
    exact hperm
  · exact List.sorted_mergeSort (sortCmpLe_trans oldest) (sortCmpLe_total oldest) _

/-- A concrete task used to exhibit the dead command filter: its command
is `apply`, matching none of the commands the caller filters by. -/
def tApplyC2 : Task :=
  { id := 1, path := "mod", command := ["apply"], args := [], env := [],
    blocking := false, state := TaskStatus.exited, updated := 3, parents := [0] }

/-- A one-task service for the command-filter counterexample. -/
def svcC2 : TaskService :=
  { table := [(1, tApplyC2)], counter := 1 }

/-- C2: evaluation of `Service.List` at a failing input. The stored task's
command is `["apply"]` and the caller filters with `Command:
[["plan"]]`, yet the task is returned: the Go loop over `opts.Command`
only `break`s on a match and never `continue`s past a task, so the
command filter excludes nothing, contradicting the `ListOptions.Command`
doc comment ("Filter tasks by those with one of the following
commands"). -/
theorem list_command_filter_ineffective :
    svcC2.list { path := none, status := none, oldest := true, blocking := false,
                 command := some [["plan"]], ancestor := 0 } = [tApplyC2] := by
  simp [TaskService.list, svcC2, matchesListOptions, commandLoop, tApplyC2,
    Task.hasAncestor]

/-- C9: `task.Service.Delete` returns a nil error for every task ID —
running, terminal, or absent — never touches the live-task counter, and
folding any number of deletions over the service leaves `Counter()`
unchanged. -/
theorem task_delete_always_ok_counter_unchanged (svc : TaskService) (taskID : ID)
    (ids : List ID) :
    (svc.delete taskID).2 = none ∧
    ((svc.delete taskID).1).counterVal = svc.counterVal ∧
    (svc.deleteAll ids).counterVal = svc.counterVal := by
  refine ⟨rfl, rfl, ?_⟩
  induction ids generalizing svc with
  | nil => rfl
  | cons i rest ih =>
    simpa [TaskService.deleteAll, TaskService.delete] using ih _

/-- Per-resource status annotations in the state cache (Go
`state.ResourceStatus`): `Idle, Tainted, Removing`. -/
inductive ResourceStatus where
  | idle
  | tainted
  | removing
deriving DecidableEq

/-- Cache-level status of a workspace's state entry (Go `state.State.State`):
`Idle` or `Reloading`, guarding re-entrant reloads. -/
inductive CacheStatus where
  | idleState
  | reloadingState
deriving DecidableEq

/-- Modelled from the spec: the `State` entity (not among the sources)
holds a mapping from resource address to a record whose mutable part is its
`Status`, plus the cache-level status. The map is embedded as an
association list keyed by address; the record's `Address` field always
equals its key, so only the `Status` value is kept. -/
structure State where
  state : CacheStatus
  resources : List (Addr × ResourceStatus)
deriving DecidableEq

/-- Lookup in a resource map embedded as an association list (first match,
as in a Go map where keys are unique). -/
def lookupAddr : List (Addr × ResourceStatus) → Addr → Option ResourceStatus
  | [], _ => none
  | e :: rest, a => if e.1 = a then some e.2 else lookupAddr rest a

/-- Modelled from the spec: the decoded external payload (`state.StateFile`)
enumerates resource addresses; other attributes are opaque and irrelevant
to every claim. -/
structure StateFile where
  addresses : List Addr
deriving DecidableEq

/-- Modelled from the spec: `NewState` parses the payload into a candidate
resource mapping keyed by address; fresh entries carry the default `Idle`
status and the cache-level status of a fresh entry is `Idle`. -/
def NewState (file : StateFile) : State :=
  { state := CacheStatus.idleState,
    resources := file.addresses.map (fun a => (a, ResourceStatus.idle)) }

/-- Modelled from the spec: `State.startReload` (not among the sources)
rejects with an `InvalidState`-class conflict error if the entry is already
`Reloading`, and otherwise marks it `Reloading`. -/
def startReload (s : State) : Except Err State :=
  if s.state = CacheStatus.reloadingState then Except.error Err.invalidState
  else Except.ok { s with state := CacheStatus.reloadingState }

/-- Embeds the status-copying loop in `Reload`'s `AfterExited` hook: for
each address of the candidate snapshot, if the previous snapshot contains
it, its prior `Status` is copied across (the candidate is mutated, not the
stored entry). -/
def mergeResources (previous current : List (Addr × ResourceStatus)) :
    List (Addr × ResourceStatus) :=
  current.map (fun e =>
    match lookupAddr previous e.1 with
    | some ps => (e.1, ps)
    | none => e)

/-- First-order embedding of the hook closures a state-service task is
created with: `Reload` registers the merge/revert hooks for its workspace,
`Delete` registers the optimistic-removal hooks for its workspace and
addresses, `Taint` registers none. -/
inductive HookSet where
  | noHooks
  | reloadHooks (wid : ID)
  | deleteHooks (wid : ID) (addrs : List Addr)
deriving DecidableEq

/-- The options `state.Service.createTask` fills in before calling
`task.Service.Create` (Go `task.CreateOptions`), with the hook closures
replaced by their first-order `HookSet` description. -/
structure CreateOptions where
  blocking : Bool
  command : List String
  args : List String
  hooks : HookSet

/-- The workspace entity (Go `workspace.Workspace`): its name and the ID
of the owning module (`ModuleID()` reads the parent link). -/
structure Workspace where
  name : String
  moduleID : ID
deriving DecidableEq

/-- The module entity (Go `module.Module`): the part the state service
reads is its path. -/
structure Module where
  path : String
deriving DecidableEq

/-- Embeds `workspace.TerraformEnv`: the single extra environment entry a
state-service task receives. -/
def terraformEnv (name : String) : String :=
  "TF_WORKSPACE=" ++ name

/-- The state service's reachable state (Go `state.Service`): the
workspace and module directories it consults, the per-workspace cache
table, and the tasks it has created (each with its hook description).
Tables are embedded as functions from ID to an optional entity. -/
structure StateSvc where
  workspaces : ID → Option Workspace
  modules : ID → Option Module
  cache : ID → Option State
  tasks : List (Task × HookSet)

/-- Modelled from the spec: `Table.Update` mutates the entry under the key
if present and is a no-op returning `NotFound` when the key is absent. -/
def tableUpdate (t : ID → Option State) (k : ID) (f : State → State) :
    ID → Option State :=
  fun x => if x = k then (t k).map f else t x

/-- Modelled from the spec: `Table.Add` inserts or replaces the entry under
the key. -/
def tableInsert (t : ID → Option State) (k : ID) (v : State) :
    ID → Option State :=
  fun x => if x = k then some v else t x

/-- Embeds `state.Service.updateStateStatus`: runs the mutator through
`cache.Update`, capturing the mutator's own error; `Update`'s `NotFound`
return value is discarded, so a missing entry silently skips the mutator
and leaves the captured error nil. -/
def updateStateStatus (svc : StateSvc) (wid : ID) (f : State → Except Err State) :
    StateSvc × Option Err :=
  match svc.cache wid with
  | none => (svc, none)
  | some st =>
    match f st with
    | Except.error e => (svc, some e)
    | Except.ok st' => ({ svc with cache := tableUpdate svc.cache wid (fun _ => st') }, none)

/-- Embeds `state.Service.updateResourceStatus`: for every resource of the
workspace's entry whose address is among `addrs`, set its status. -/
def updateResourceStatus (svc : StateSvc) (wid : ID) (st : ResourceStatus)
    (addrs : List Addr) : StateSvc :=
  { svc with cache := tableUpdate svc.cache wid (fun existing =>
      { existing with resources := existing.resources.map (fun e =>
          if e.1 ∈ addrs then (e.1, st) else e) }) }

/-- Embeds the `revertIdle` closure in `Reload`: set the entry's
cache-level status back to `Idle`, discarding the update's outcome. -/
def revertIdle (svc : StateSvc) (wid : ID) : StateSvc :=
  (updateStateStatus svc wid (fun ex =>
    Except.ok { ex with state := CacheStatus.idleState })).1

/-- Applies the synchronous `AfterCreate` hook `task.Service.Create` runs:
only `state.Service.Delete` registers one, optimistically marking the named
resources `Removing`. -/
def applyCreateHook (svc : StateSvc) (h : HookSet) : StateSvc :=
  match h with
  | HookSet.deleteHooks wid addrs => updateResourceStatus svc wid ResourceStatus.removing addrs
  | _ => svc

/-- Embeds `state.Service.createTask` composed with `task.Service.Create`:
look up the workspace (NotFound if absent), fill in parent, environment
and module path (NotFound if the module is absent), validate the command
is non-empty (spec section 4.3), register the pending task, and run the
`AfterCreate` hook synchronously. -/
def StateSvc.createTask (svc : StateSvc) (wid : ID) (opts : CreateOptions) :
    Except Err (StateSvc × Task) :=
  match svc.workspaces wid with
  | none => Except.error Err.notFound
  | some ws =>
    match svc.modules ws.moduleID with
    | none => Except.error Err.notFound
    | some m =>
      if opts.command = [] then Except.error Err.validation
      else
        let t : Task :=
          { id := svc.tasks.length, path := m.path, command := opts.command,
            args := opts.args, env := [terraformEnv ws.name],
            blocking := opts.blocking, state := TaskStatus.pending,
            updated := 0, parents := [wid, ws.moduleID, 0] }
        let svc1 := { svc with tasks := svc.tasks ++ [(t, opts.hooks)] }
        Except.ok (applyCreateHook svc1 opts.hooks, t)

/-- Embeds `state.Service.Reload`: run `startReload` through
`updateStateStatus` as the re-entrancy guard, then create the non-blocking
`state pull` task carrying the reload hooks; if task creation fails, revert
the entry to `Idle` and surface the error. -/
def StateSvc.reload (svc : StateSvc) (wid : ID) : StateSvc × Except Err Task :=
  match updateStateStatus svc wid startReload with
  | (svc1, some e) => (svc1, Except.error e)
  | (svc1, none) =>
    match svc1.createTask wid
        { blocking := false, command := ["state", "pull"], args := [],
          hooks := HookSet.reloadHooks wid } with
    | Except.error e => (revertIdle svc1 wid, Except.error e)
    | Except.ok (svc2, t) => (svc2, Except.ok t)

/-- Embeds `state.Service.Delete`: create the blocking `state rm` task
carrying the optimistic-removal hooks (whose `AfterCreate` marks the named
resources `Removing`). -/
def StateSvc.delete (svc : StateSvc) (wid : ID) (addrs : List Addr) :
    StateSvc × Except Err Task :=
  match svc.createTask wid
      { blocking := true, command := ["state", "rm"], args := addrs,
        hooks := HookSet.deleteHooks wid addrs } with
  | Except.error e => (svc, Except.error e)
  | Except.ok (svc', t) => (svc', Except.ok t)

/-- Embeds `state.Service.Taint`: create a blocking `taint` task for the
address, registering no hooks at all. -/
def StateSvc.taint (svc : StateSvc) (wid : ID) (addr : String) :
    StateSvc × Except Err Task :=
  match svc.createTask wid
      { blocking := true, command := ["taint"], args := [addr],
        hooks := HookSet.noHooks } with
  | Except.error e => (svc, Except.error e)
  | Except.ok (svc', t) => (svc', Except.ok t)

/-- Task outcomes that drive the terminal hooks (spec section 4.3):
external success, failure, or cancellation. -/
inductive Outcome where
  | exited
  | errored
  | canceled
deriving DecidableEq

/-- Embeds `Reload`'s `AfterExited` hook: decode the payload (`none`
models a JSON decode failure, which logs and returns early), build the
candidate snapshot, copy prior statuses across for addresses present in
both via `cache.Update` (a no-op if the entry is absent), then replace the
entry wholesale with `cache.Add`. -/
def reloadAfterExited (svc : StateSvc) (wid : ID) (payload : Option StateFile) :
    StateSvc :=
  match payload with
  | none => svc
  | some file =>
    let current := NewState file
    let current2 :=
      match svc.cache wid with
      | some previous =>
        { current with resources := mergeResources previous.resources current.resources }
      | none => current
    { svc with cache := tableInsert svc.cache wid current2 }

/-- Interprets a finished task's hooks, in the spec's fixed order: the
terminal hook matching the outcome (`AfterExited`, `AfterError`,
`AfterCanceled`), then `AfterFinish`. `Reload` merges on success, only
logs on error or cancellation, and always reverts the entry to `Idle` in
`AfterFinish`; `Delete` removes the addresses on success and reverts them
to `Idle` on error or cancellation; `Taint` does nothing. -/
def finish (svc : StateSvc) (hooks : HookSet) (o : Outcome)
    (payload : Option StateFile) : StateSvc :=
  match hooks with
  | HookSet.noHooks => svc
  | HookSet.reloadHooks wid =>
    let svc1 :=
      match o with
      | Outcome.exited => reloadAfterExited svc wid payload
      | Outcome.errored => svc
      | Outcome.canceled => svc
    revertIdle svc1 wid
  | HookSet.deleteHooks wid addrs =>
    match o with
    | Outcome.exited =>
      { svc with cache := tableUpdate svc.cache wid (fun existing =>
          { existing with resources :=
              existing.resources.filter (fun e => !(decide (e.1 ∈ addrs))) }) }
    | Outcome.errored => updateResourceStatus svc wid ResourceStatus.idle addrs
    | Outcome.canceled => updateResourceStatus svc wid ResourceStatus.idle addrs

/-- Status of the resource at an address of a workspace's cache entry, or
`none` when the entry or the address is absent. -/
def cacheResourceStatus (svc : StateSvc) (wid : ID) (a : Addr) :
    Option ResourceStatus :=
  match svc.cache wid with
  | some st => lookupAddr st.resources a
  | none => none

theorem lookupAddr_mergeResources (prev cur : List (Addr × ResourceStatus)) (a : Addr) :
    lookupAddr (mergeResources prev cur) a =
      match lookupAddr cur a, lookupAddr prev a with
      | none, _ => none
      | some _, some ps => some ps
      | some cs, none => some cs := by
  induction cur with
  | nil => rfl
  | cons e rest ih =>
    obtain ⟨k, s⟩ := e
    by_cases hk : k = a
    · subst hk
      cases hprev : lookupAddr prev k <;>
        simp [mergeResources, lookupAddr, hprev]
    · cases hprev : lookupAddr prev k <;>
        simpa [mergeResources, lookupAddr, hprev, hk] using ih

theorem lookupAddr_setStatus (l : List (Addr × ResourceStatus)) (addrs : List Addr)
    (st : ResourceStatus) (a : Addr) :
    lookupAddr (l.map (fun e => if e.1 ∈ addrs then (e.1, st) else e)) a =
      (lookupAddr l a).map (fun s => if a ∈ addrs then st else s) := by
  induction l with
  | nil => rfl
  | cons e rest ih =>
    obtain ⟨k, s⟩ := e
    by_cases hk : k = a
    · subst hk
      by_cases hc : k ∈ addrs <;> simp [lookupAddr, hc]
    · by_cases hc : k ∈ addrs <;> simp [lookupAddr, hk, hc, ih]

theorem lookupAddr_removeAddrs (l : List (Addr × ResourceStatus)) (addrs : List Addr)
    (a : Addr) (h : a ∈ addrs) :
    lookupAddr (l.filter (fun e => !(decide (e.1 ∈ addrs)))) a = none := by
  induction l with
  | nil => rfl
  | cons e rest ih =>
    obtain ⟨k, s⟩ := e
    by_cases hk : k = a
    · subst hk
      simp [List.filter_cons, h, ih]
    · by_cases hc : k ∈ addrs <;>
        simp [List.filter_cons, hc, lookupAddr, hk, ih]

theorem lookupAddr_mapIdle (l : List Addr) (a : Addr) :
    lookupAddr (l.map (fun x => (x, ResourceStatus.idle))) a =
      if a ∈ l then some ResourceStatus.idle else none := by
  induction l with
  | nil => rfl
  | cons k rest ih =>
    by_cases hk : k = a
    · subst hk
      simp [lookupAddr]
    · simp [lookupAddr, hk, ih, Ne.symm hk]

/-- C4: `Reload` on a workspace whose cache entry is already `Reloading`
returns the `InvalidState` conflict error from `startReload`, creates no
task, and leaves the whole service state — in particular the existing
cache entry — unchanged. -/
theorem reload_rejects_when_reloading (svc : StateSvc) (wid : ID) (st : State)
    (h1 : svc.cache wid = some st) (h2 : st.state = CacheStatus.reloadingState) :
    svc.reload wid = (svc, Except.error Err.invalidState) := by
  simp [StateSvc.reload, updateStateStatus, startReload, h1, h2]

/-- A cache entry already in the `Reloading` state, for the re-entrancy
witness. -/
def stReloadingW : State :=
  { state := CacheStatus.reloadingState, resources := [] }

/-- A service whose workspace 7 is mid-reload, for the re-entrancy
witness. -/
def svcReloadingW : StateSvc :=
  { workspaces := fun _ => none, modules := fun _ => none,
    cache := fun x => if x = 7 then some stReloadingW else none, tasks := [] }

/-- Witness for C4 at a concrete service whose entry for workspace 7 is
`Reloading`. -/
theorem reload_rejects_when_reloading_witness :
    svcReloadingW.cache 7 = some stReloadingW ∧
    stReloadingW.state = CacheStatus.reloadingState ∧
    svcReloadingW.reload 7 = (svcReloadingW, Except.error Err.invalidState) :=
  ⟨rfl, rfl, reload_rejects_when_reloading svcReloadingW 7 stReloadingW rfl rfl⟩

/-- C10: `Reload` on a workspace with no cache entry does not fail with
`NotFound`: `updateStateStatus` discards `Table.Update`'s return value, so
the guard silently skips the missing entry with a nil per-entry error, and
the `state pull` task is still created and returned. -/
theorem reload_missing_entry_still_creates_task (svc : StateSvc) (wid : ID)
    (ws : Workspace) (m : Module)
    (h1 : svc.cache wid = none)
    (h2 : svc.workspaces wid = some ws)
    (h3 : svc.modules ws.moduleID = some m) :
    ∃ t, svc.reload wid =
        ({ svc with tasks := svc.tasks ++ [(t, HookSet.reloadHooks wid)] }, Except.ok t) ∧
      t.command = ["state", "pull"] ∧ t.state = TaskStatus.pending := by
  refine ⟨{ id := svc.tasks.length, path := m.path, command := ["state", "pull"],
            args := [], env := [terraformEnv ws.name], blocking := false,
            state := TaskStatus.pending, updated := 0,
            parents := [wid, ws.moduleID, 0] }, ?_, rfl, rfl⟩
  simp [StateSvc.reload, updateStateStatus, h1, StateSvc.createTask, h2, h3,
    applyCreateHook]

/-- A workspace and module directory shared by the concrete state-service
witnesses. -/
def wsW : Workspace :=
  { name := "default", moduleID := 2 }

/-- The module owning the witness workspace. -/
def modW : Module :=
  { path := "mods/a" }

/-- A service knowing workspace 7 and module 2 but holding no cache entry
yet, for the missing-entry witness. -/
def svcNoCacheW : StateSvc :=
  { workspaces := fun x => if x = 7 then some wsW else none,
    modules := fun x => if x = 2 then some modW else none,
    cache := fun _ => none, tasks := [] }

/-- Witness for C10 at a concrete service with no cache entry for
workspace 7. -/
theorem reload_missing_entry_still_creates_task_witness :
    svcNoCacheW.cache 7 = none ∧
    ∃ t, svcNoCacheW.reload 7 =
        ({ svcNoCacheW with tasks := svcNoCacheW.tasks ++ [(t, HookSet.reloadHooks 7)] },
          Except.ok t) ∧
      t.command = ["state", "pull"] ∧ t.state = TaskStatus.pending :=
  ⟨rfl, reload_missing_entry_still_creates_task svcNoCacheW 7 wsW modW rfl rfl rfl⟩

/-- A cache entry holding a tainted resource `db` and an idle resource
`vm`, for the merge and delete witnesses. -/
def stTaintedW : State :=
  { state := CacheStatus.idleState,
    resources := [("db", ResourceStatus.tainted), ("vm", ResourceStatus.idle)] }

/-- A service whose workspace 7 is cached with `stTaintedW`, for the
merge, revert, delete and taint witnesses. -/
def svcCacheW : StateSvc :=
  { workspaces := fun x => if x = 7 then some wsW else none,
    modules := fun x => if x = 2 then some modW else none,
    cache := fun x => if x = 7 then some stTaintedW else none, tasks := [] }

/-- An external payload still listing `db` but no longer `vm`, for the
merge witness. -/
def fileW : StateFile :=
  { addresses := ["db", "web"] }

/-- C3: a successful reload's `AfterExited` hook replaces the cache entry
by the parsed payload merged with the previous snapshot: an address
present in both keeps its prior status (a `Tainted` resource stays
`Tainted`); an address absent from the new payload is absent from the
merged entry; an address only in the new payload keeps the candidate's own
entry, so prior statuses are copied only for addresses present in both. -/
theorem reload_merge_status_semantics (svc : StateSvc) (wid : ID) (prev : State)
    (file : StateFile) (a : Addr) (ps : ResourceStatus)
    (h : svc.cache wid = some prev) :
    (lookupAddr prev.resources a = some ps → a ∈ file.addresses →
      cacheResourceStatus (finish svc (HookSet.reloadHooks wid) Outcome.exited (some file))
        wid a = some ps) ∧
    (a ∉ file.addresses →
      cacheResourceStatus (finish svc (HookSet.reloadHooks wid) Outcome.exited (some file))
        wid a = none) ∧
    (lookupAddr prev.resources a = none → a ∈ file.addresses →
      cacheResourceStatus (finish svc (HookSet.reloadHooks wid) Outcome.exited (some file))
        wid a = lookupAddr (NewState file).resources a) := by
  have hnew : lookupAddr (NewState file).resources a =
      if a ∈ file.addresses then some ResourceStatus.idle else none :=
    lookupAddr_mapIdle file.addresses a
  have hfin : cacheResourceStatus
      (finish svc (HookSet.reloadHooks wid) Outcome.exited (some file)) wid a =
      lookupAddr (mergeResources prev.resources (NewState file).resources) a := by
    simp [finish, reloadAfterExited, h, revertIdle, updateStateStatus, tableInsert,
      tableUpdate, cacheResourceStatus]
  refine ⟨?_, ?_, ?_⟩
  · intro hp hm
    rw [hfin, lookupAddr_mergeResources, hnew, if_pos hm, hp]
  · intro hm
    rw [hfin, lookupAddr_mergeResources, hnew, if_neg hm]
  · intro hp hm
    rw [hfin, lookupAddr_mergeResources, hnew, if_pos hm, hp]

/-- Witness for C3: workspace 7's `db` resource is `Tainted`, the new
payload still lists `db`, and after the merge it is still `Tainted`. -/
theorem reload_merge_status_semantics_witness :
    svcCacheW.cache 7 = some stTaintedW ∧
    lookupAddr stTaintedW.resources "db" = some ResourceStatus.tainted ∧
    "db" ∈ fileW.addresses ∧
    cacheResourceStatus (finish svcCacheW (HookSet.reloadHooks 7) Outcome.exited (some fileW))
      7 "db" = some ResourceStatus.tainted :=
  ⟨rfl, by decide, by decide,
    (reload_merge_status_semantics svcCacheW 7 stTaintedW fileW "db"
      ResourceStatus.tainted rfl).1 (by decide) (by decide)⟩

theorem finish_reload_idle (svc : StateSvc) (wid : ID) (st : State) (o : Outcome)
    (payload : Option StateFile) (h : svc.cache wid = some st) :
    ((finish svc (HookSet.reloadHooks wid) o payload).cache wid).map State.state =
      some CacheStatus.idleState := by
  cases o <;> cases payload <;>
    simp [finish, reloadAfterExited, revertIdle, updateStateStatus, h,
      tableInsert, tableUpdate, NewState]

/-- C5: once `Reload` passes the re-entrancy guard it marks the entry
`Reloading`; on every task outcome — success (with or without a decodable
payload), error, cancellation — the hooks leave the entry's cache-level
status `Idle`, and when the task cannot be created at all the error path
also reverts the entry to `Idle`. -/
theorem reload_reverts_idle_on_every_outcome (svc : StateSvc) (wid : ID) (st : State)
    (o : Outcome) (payload : Option StateFile)
    (h1 : svc.cache wid = some st) (h2 : st.state ≠ CacheStatus.reloadingState) :
    (∀ svc' t, svc.reload wid = (svc', Except.ok t) →
      (svc'.cache wid).map State.state = some CacheStatus.reloadingState ∧
      ((finish svc' (HookSet.reloadHooks wid) o payload).cache wid).map State.state =
        some CacheStatus.idleState) ∧
    (∀ svc' e, svc.reload wid = (svc', Except.error e) →
      (svc'.cache wid).map State.state = some CacheStatus.idleState) := by
  have hguard : updateStateStatus svc wid startReload =
      ({ svc with cache := tableUpdate svc.cache wid (fun _ => { st with state := CacheStatus.reloadingState }) }, none) := by
    simp [updateStateStatus, startReload, h1, h2]
  have hc1 : (tableUpdate svc.cache wid (fun _ => { st with state := CacheStatus.reloadingState })) wid =
      some { st with state := CacheStatus.reloadingState } := by
    simp [tableUpdate, h1]
  cases hw : svc.workspaces wid with
  | none =>
    constructor
    · intro svc' t hrt
      simp [StateSvc.reload, hguard, StateSvc.createTask, hw] at hrt
    · intro svc' e hre
      simp [StateSvc.reload, hguard, StateSvc.createTask, hw] at hre
      obtain ⟨rfl, rfl⟩ := hre
      simp [revertIdle, updateStateStatus, tableUpdate, h1]
  | some ws =>
    cases hm : svc.modules ws.moduleID with
    | none =>
      constructor
      · intro svc' t hrt
        simp [StateSvc.reload, hguard, StateSvc.createTask, hw, hm] at hrt
      · intro svc' e hre
        simp [StateSvc.reload, hguard, StateSvc.createTask, hw, hm] at hre
        obtain ⟨rfl, rfl⟩ := hre
        simp [revertIdle, updateStateStatus, tableUpdate, h1]
    | some m =>
      constructor
      · intro svc' t hrt
        simp [StateSvc.reload, hguard, StateSvc.createTask, hw, hm, applyCreateHook] at hrt
        obtain ⟨rfl, rfl⟩ := hrt
        constructor
        · simp [tableUpdate, h1]
        · exact finish_reload_idle _ wid _ o payload hc1
      · intro svc' e hre
        simp [StateSvc.reload, hguard, StateSvc.createTask, hw, hm, applyCreateHook] at hre

/-- Witness for C5 at a concrete service whose entry for workspace 7 is
idle, with the errored outcome. -/
theorem reload_reverts_idle_on_every_outcome_witness :
    svcCacheW.cache 7 = some stTaintedW ∧
    stTaintedW.state ≠ CacheStatus.reloadingState ∧
    ((∀ svc' t, svcCacheW.reload 7 = (svc', Except.ok t) →
      (svc'.cache 7).map State.state = some CacheStatus.reloadingState ∧
      ((finish svc' (HookSet.reloadHooks 7) Outcome.errored none).cache 7).map State.state =
        some CacheStatus.idleState) ∧
    (∀ svc' e, svcCacheW.reload 7 = (svc', Except.error e) →
      (svc'.cache 7).map State.state = some CacheStatus.idleState)) :=
  ⟨rfl, by decide,
    reload_reverts_idle_on_every_outcome svcCacheW 7 stTaintedW Outcome.errored none
      rfl (by decide)⟩

/-- C6: `state.Service.Delete` creates a blocking `state rm` task whose
synchronous `AfterCreate` hook marks every named resource `Removing`
before the external command runs; on successful exit the named resources
are removed from the cache entry, and on error or cancellation their
status is reverted to `Idle`. -/
theorem delete_marks_removes_reverts (svc : StateSvc) (wid : ID) (addrs : List Addr)
    (ws : Workspace) (m : Module) (st : State) (a : Addr) (s0 : ResourceStatus)
    (h1 : svc.workspaces wid = some ws)
    (h2 : svc.modules ws.moduleID = some m)
    (h3 : svc.cache wid = some st)
    (h4 : a ∈ addrs)
    (h5 : lookupAddr st.resources a = some s0) :
    ∃ svc' t, svc.delete wid addrs = (svc', Except.ok t) ∧
      t.blocking = true ∧ t.command = ["state", "rm"] ∧ t.args = addrs ∧
      cacheResourceStatus svc' wid a = some ResourceStatus.removing ∧
      cacheResourceStatus (finish svc' (HookSet.deleteHooks wid addrs) Outcome.exited none)
        wid a = none ∧
      cacheResourceStatus (finish svc' (HookSet.deleteHooks wid addrs) Outcome.errored none)
        wid a = some ResourceStatus.idle ∧
      cacheResourceStatus (finish svc' (HookSet.deleteHooks wid addrs) Outcome.canceled none)
        wid a = some ResourceStatus.idle := by
  refine ⟨updateResourceStatus { svc with tasks := svc.tasks ++ [({ id := svc.tasks.length, path := m.path, command := ["state", "rm"], args := addrs, env := [terraformEnv ws.name], blocking := true, state := TaskStatus.pending, updated := 0, parents := [wid, ws.moduleID, 0] }, HookSet.deleteHooks wid addrs)] } wid ResourceStatus.removing addrs,
    { id := svc.tasks.length, path := m.path, command := ["state", "rm"], args := addrs, env := [terraformEnv ws.name], blocking := true, state := TaskStatus.pending, updated := 0, parents := [wid, ws.moduleID, 0] },
    ?_, rfl, rfl, rfl, ?_, ?_, ?_, ?_⟩
  · simp [StateSvc.delete, StateSvc.createTask, h1, h2, applyCreateHook]
  · simp [cacheResourceStatus, updateResourceStatus, tableUpdate, h3,
      lookupAddr_setStatus, h5, h4]
  · simp [finish, cacheResourceStatus, updateResourceStatus, tableUpdate, h3,
      lookupAddr_removeAddrs, h4]
  · simp [finish, cacheResourceStatus, updateResourceStatus, tableUpdate, h3,
      lookupAddr_setStatus, h5, h4, -List.map_map]
  · simp [finish, cacheResourceStatus, updateResourceStatus, tableUpdate, h3,
      lookupAddr_setStatus, h5, h4, -List.map_map]

/-- Witness for C6 at a concrete service: deleting `db` from workspace 7
marks it `Removing`, removes it on success, and reverts it to `Idle` on
error or cancellation. -/
theorem delete_marks_removes_reverts_witness :
    svcCacheW.workspaces 7 = some wsW ∧
    svcCacheW.modules wsW.moduleID = some modW ∧
    svcCacheW.cache 7 = some stTaintedW ∧
    "db" ∈ ["db"] ∧
    lookupAddr stTaintedW.resources "db" = some ResourceStatus.tainted ∧
    ∃ svc' t, svcCacheW.delete 7 ["db"] = (svc', Except.ok t) ∧
      t.blocking = true ∧ t.command = ["state", "rm"] ∧ t.args = ["db"] ∧
      cacheResourceStatus svc' 7 "db" = some ResourceStatus.removing ∧
      cacheResourceStatus (finish svc' (HookSet.deleteHooks 7 ["db"]) Outcome.exited none)
        7 "db" = none ∧
      cacheResourceStatus (finish svc' (HookSet.deleteHooks 7 ["db"]) Outcome.errored none)
        7 "db" = some ResourceStatus.idle ∧
      cacheResourceStatus (finish svc' (HookSet.deleteHooks 7 ["db"]) Outcome.canceled none)
        7 "db" = some ResourceStatus.idle :=
  ⟨rfl, rfl, rfl, by decide, by decide,
    delete_marks_removes_reverts svcCacheW 7 ["db"] wsW modW stTaintedW "db"
      ResourceStatus.tainted rfl rfl rfl (by decide) (by decide)⟩

/-- C8: `state.Service.Taint` creates a blocking `taint` task with the
given address and registers no hooks, so the cache — its entries, their
resource statuses, and the cache-level status — is unchanged at creation
and stays unchanged on every task outcome. -/
theorem taint_never_mutates_cache (svc : StateSvc) (wid : ID) (addr : String)
    (ws : Workspace) (m : Module) (o : Outcome) (payload : Option StateFile)
    (h1 : svc.workspaces wid = some ws)
    (h2 : svc.modules ws.moduleID = some m) :
    ∃ svc' t, svc.taint wid addr = (svc', Except.ok t) ∧
      t.blocking = true ∧ t.command = ["taint"] ∧ t.args = [addr] ∧
      svc'.cache = svc.cache ∧
      (finish svc' HookSet.noHooks o payload).cache = svc.cache := by
  refine ⟨{ svc with tasks := svc.tasks ++ [({ id := svc.tasks.length, path := m.path, command := ["taint"], args := [addr], env := [terraformEnv ws.name], blocking := true, state := TaskStatus.pending, updated := 0, parents := [wid, ws.moduleID, 0] }, HookSet.noHooks)] },
    { id := svc.tasks.length, path := m.path, command := ["taint"], args := [addr], env := [terraformEnv ws.name], blocking := true, state := TaskStatus.pending, updated := 0, parents := [wid, ws.moduleID, 0] },
    ?_, rfl, rfl, rfl, rfl, rfl⟩
  simp [StateSvc.taint, StateSvc.createTask, h1, h2, applyCreateHook]

/-- Witness for C8 at a concrete service: tainting `db` in workspace 7
leaves the cache untouched through creation and the exited outcome. -/
theorem taint_never_mutates_cache_witness :
    svcCacheW.workspaces 7 = some wsW ∧
    svcCacheW.modules wsW.moduleID = some modW ∧
    ∃ svc' t, svcCacheW.taint 7 "db" = (svc', Except.ok t) ∧
      t.blocking = true ∧ t.command = ["taint"] ∧ t.args = ["db"] ∧
      svc'.cache = svcCacheW.cache ∧
      (finish svc' HookSet.noHooks Outcome.exited none).cache = svcCacheW.cache :=
  ⟨rfl, rfl,
    taint_never_mutates_cache svcCacheW 7 "db" wsW modW Outcome.exited none rfl rfl⟩

/-- The run entity (Go `run.Run`): only its identity is relevant to the
bulk-creation claims. -/
structure Run where
  id : ID
deriving DecidableEq

/-- The message `CreateRuns` produces (Go `run.CreatedRunsMsg`): the run
pointers collected per attempt (a nil pointer is `none`) and the creation
errors. -/
structure CreatedRunsMsg where
  runs : List (Option Run)
  createErrs : List String
deriving DecidableEq

/-- Embeds the loop of `CreateRuns`: for each workspace ID the run
service's `Create` is attempted; on error the error is appended to
`CreateErrs`, and the returned run pointer — nil when creation failed — is
appended to `Runs` unconditionally, since the loop body has no `continue`
after the error branch. -/
def createRunsLoop (create : ID → Except String Run) :
    List ID → CreatedRunsMsg → CreatedRunsMsg
  | [], msg => msg
  | wid :: rest, msg =>
    match create wid with
    | Except.error e =>
      createRunsLoop create rest
        { msg with createErrs := msg.createErrs ++ [e], runs := msg.runs ++ [none] }
    | Except.ok r =>
      createRunsLoop create rest { msg with runs := msg.runs ++ [some r] }

/-- Embeds `CreateRuns`: a nil command for an empty batch, otherwise the
message built by attempting every workspace in order. -/
def CreateRuns (create : ID → Except String Run) (wids : List ID) :
    Option CreatedRunsMsg :=
  if wids = [] then none
  else some (createRunsLoop create wids { runs := [], createErrs := [] })

/-- Where `HandleCreatedRuns` sends the user, by the length of the
`Runs` slice: nowhere, to the single run's page, or to the run listing. -/
inductive Navigation where
  | noNav
  | toRun (r : Option Run)
  | toRunList
deriving DecidableEq

/-- First-order embedding of the info or error message each branch of
`HandleCreatedRuns` formats, retaining the data its format string uses:
`created %s successfully`, `creating run failed: %w`, `creating %d runs
failed: see logs`, `created %d runs; %d failed to be created; see logs`,
and `created %d runs successfully`. -/
inductive RunReport where
  | createdOne (r : Option Run)
  | oneFailed (e : String)
  | allFailed (failed : Nat)
  | someFailed (created failed : Nat)
  | allCreated (created : Nat)
deriving DecidableEq

/-- Embeds `HandleCreatedRuns`: navigation by the length of `Runs`, then
the if-else chain over `len(msg.Runs)` and `len(msg.CreateErrs)` choosing
the info or error report. -/
def HandleCreatedRuns (msg : CreatedRunsMsg) : Navigation × RunReport :=
  let navigate :=
    match msg.runs with
    | [] => Navigation.noNav
    | [r] => Navigation.toRun r
    | _ => Navigation.toRunList
  let report :=
    if msg.runs.length = 1 then RunReport.createdOne (msg.runs.headD none)
    else if msg.runs.length = 0 ∧ msg.createErrs.length = 1 then
      RunReport.oneFailed (msg.createErrs.headD "")
    else if msg.runs.length = 0 ∧ msg.createErrs.length > 1 then
      RunReport.allFailed msg.createErrs.length
    else if msg.createErrs.length > 0 then
      RunReport.someFailed msg.runs.length msg.createErrs.length
    else RunReport.allCreated msg.runs.length
  (navigate, report)

/-- A run-creation service that always fails, for the aggregation
counterexample. -/
def createFailW : ID → Except String Run :=
  fun _ => Except.error "boom"

/-- C7: evaluation of the bulk-creation path at a failing input. One
workspace is submitted and its run creation fails, yet `Runs` receives the
nil run pointer (the loop appends it even on error), so the message's run
list is not the list of successfully created runs; `HandleCreatedRuns`
then takes the `len(msg.Runs) == 1` branch, navigating to the nil run's
page and reporting `created ... successfully` with no error, although
there were zero successes — the failure-reporting branches its own
comments describe are unreachable for every non-empty batch. -/
theorem createRuns_reports_success_on_failure :
    CreateRuns createFailW [1] = some { runs := [none], createErrs := ["boom"] } ∧
    HandleCreatedRuns { runs := [none], createErrs := ["boom"] } =
      (Navigation.toRun none, RunReport.createdOne none) := by
  constructor <;> rfl

end Pug
